import Mathlib

/-!
Verification of the A2A-to-Carbon chat translator.

This file gives a shallow embedding of the translation engine of the
`a2a-carbon-chat-adapter` repository: the content classifier, metadata
extractor, part/trajectory translators and the batch task translator from
`lib/translator` (the `A2AToCarbonTranslator` class), together with the
citation extractor from `lib/a2a/index.ts`, and proves the stated
properties about them.

Conventions of the embedding:
- JavaScript runtime values (parsed JSON, `Record<string, any>` payloads)
  are modelled by the inductive type `JValue`.  `undefined` is modelled by
  `Option`: `none` stands for an absent value.  Object-literal properties
  whose value is `undefined` are modelled as absent keys (they are
  invisible to `JSON.stringify` and to every read the code performs).
- JavaScript string operations are modelled on `List Char`.  Character
  classes (`\s`, `trim`, `toLowerCase`) are modelled via Lean's ASCII
  `Char.isWhitespace`/`Char.toLower`; the source only ever exercises them
  on ASCII data.
- A thrown `TypeError` (reachable in `translateGenericDataPart` through
  `Object.keys(null)`) is modelled with `Except JsError`.
-/

namespace A2ACarbon

/-- Runtime JavaScript/JSON value, as produced by `JSON.parse` or carried in
`Record<string, any>` payloads.  Numbers are modelled as rationals (every
JSON numeral denotes one; the source never does float arithmetic on them). -/
inductive JValue : Type where
  | null : JValue
  | bool (b : Bool) : JValue
  | num (q : Rat) : JValue
  | str (s : String) : JValue
  | arr (elems : List JValue) : JValue
  | obj (fields : List (String × JValue)) : JValue

/-- JavaScript error raised by the translated code (only `TypeError` from
`Object.keys(null)` is reachable). -/
inductive JsError : Type where
  | typeError : JsError
deriving DecidableEq

/-- Last-occurrence association lookup: JavaScript objects built by
`JSON.parse` keep the value of the last duplicate key. -/
def assocLast (fields : List (String × JValue)) (k : String) : Option JValue :=
  fields.foldl (fun acc kv => if kv.1 = k then some kv.2 else acc) none

/-- Property access `v.k` (or `v?.k` after a defined receiver): a field of an
object, `undefined` (`none`) on every other receiver the source reaches. -/
def JValue.get? : JValue → String → Option JValue
  | .obj fields, k => assocLast fields k
  | _, _ => none

/-- JavaScript truthiness of a defined value. -/
def JValue.truthy : JValue → Bool
  | .null => false
  | .bool b => b
  | .num q => q != 0
  | .str s => s != ""
  | .arr _ => true
  | .obj _ => true

/-- Truthiness of a possibly-`undefined` value. -/
def jvTruthy : Option JValue → Bool
  | none => false
  | some v => v.truthy

/-- Model of `typeof v === 'object'` (true for objects, arrays and `null`). -/
def JValue.typeofObject : JValue → Bool
  | .null => true
  | .arr _ => true
  | .obj _ => true
  | _ => false

/-- Model of the JavaScript `a || b` chain on possibly-undefined values:
keeps `a` when truthy, otherwise yields `b` unchanged. -/
def jvOr (a b : Option JValue) : Option JValue :=
  if jvTruthy a then a else b

/-- Keep a possibly-undefined value only when it is truthy (models the
conditional spread `x ? wrap x : undefined`). -/
def jvWhenTruthy (a : Option JValue) : Option JValue :=
  if jvTruthy a then a else none

/-- Model of `x === "lit"` for a possibly-undefined `x`. -/
def jvEqStr (a : Option JValue) (lit : String) : Bool :=
  match a with
  | some (.str s) => s == lit
  | _ => false

/-- Truthiness of a possibly-absent string (`""`, `null` and `undefined`
are falsy). -/
def strTruthy : Option String → Bool
  | none => false
  | some s => s != ""

/-- Model of `a || b` on optional strings. -/
def strOr (a b : Option String) : Option String :=
  if strTruthy a then a else b

/-- Keys in first-occurrence order, duplicates dropped (insertion order of a
JavaScript object built key by key). -/
def keysFirstOccur (fields : List (String × JValue)) : List String :=
  fields.foldl (fun acc kv => if acc.contains kv.1 then acc else acc ++ [kv.1]) []

/-- Model of `Object.keys`: throws `TypeError` on `null`, lists index
strings for arrays and strings, field names for objects. -/
def objectKeys : JValue → Except JsError (List String)
  | .null => .error .typeError
  | .obj fields => .ok (keysFirstOccur fields)
  | .arr xs => .ok ((List.range xs.length).map toString)
  | .str s => .ok ((List.range s.length).map toString)
  | .bool _ => .ok []
  | .num _ => .ok []

/-- Object literal with possibly-undefined property values: a property whose
value is `undefined` is omitted. -/
def objOf (entries : List (String × Option JValue)) : JValue :=
  .obj (entries.filterMap (fun kv => kv.2.map (fun v => (kv.1, v))))

/-! ### String scanning utilities (models of the JS string methods used) -/

/-- Split a character list at the first occurrence of `pat`, returning the
prefix before it and the suffix after it. -/
def splitFirstAux (pat : List Char) : List Char → Option (List Char × List Char)
  | [] => if pat.isEmpty then some ([], []) else none
  | c :: cs =>
    if pat.isPrefixOf (c :: cs) then some ([], (c :: cs).drop pat.length)
    else
      match splitFirstAux pat cs with
      | some (pre, post) => some (c :: pre, post)
      | none => none

/-- Model of `s.includes(pat)`. -/
def strContains (s pat : String) : Bool :=
  (splitFirstAux pat.toList s.toList).isSome

/-- Model of `s.toLowerCase()` (ASCII). -/
def strToLower (s : String) : String :=
  String.mk (s.toList.map Char.toLower)

/-- Model of `s.trim()`. -/
def strTrim (s : String) : String :=
  String.mk (((s.toList.dropWhile Char.isWhitespace).reverse.dropWhile Char.isWhitespace).reverse)

/-- Model of `s.startsWith(pat)`. -/
def strStartsWith (s pat : String) : Bool :=
  pat.toList.isPrefixOf s.toList

/-- The fenced-code-block delimiter of the source regexes. -/
def fenceStr : String := "```"

/-- Model of the global replace `content.replace(/```[\s\S]*?```/g, '')`:
each lazily-matched fenced block is removed; an unpaired opening fence is
left in place. -/
def stripFencedAux (fuel : Nat) (cs : List Char) : List Char :=
  match fuel with
  | 0 => cs
  | fuel + 1 =>
    match splitFirstAux fenceStr.toList cs with
    | none => cs
    | some (pre, rest) =>
      match splitFirstAux fenceStr.toList rest with
      | none => cs
      | some (body, after) =>
        let _ := body
        pre ++ stripFencedAux fuel after

/-- Remove every fenced code block from a string. -/
def stripFenced (s : String) : String :=
  String.mk (stripFencedAux s.toList.length s.toList)

/-- Model of the capture of `content.match(/```(?:json)?\s*([\s\S]*?)```/)`:
after the first fence, an optional literal `json` and greedy whitespace are
skipped and the lazy capture runs to the next fence.  When no closing fence
follows, the engine retries from a later opening fence. -/
def extractFencedAux (fuel : Nat) (cs : List Char) : Option (List Char) :=
  match fuel with
  | 0 => none
  | fuel + 1 =>
    match splitFirstAux fenceStr.toList cs with
    | none => none
    | some (pre, rest) =>
      let _ := pre
      let rest1 := if "json".toList.isPrefixOf rest then rest.drop 4 else rest
      let rest2 := rest1.dropWhile Char.isWhitespace
      match splitFirstAux fenceStr.toList rest2 with
      | some (body, after) =>
        let _ := after
        some body
      | none => extractFencedAux fuel rest

/-- First fenced-block capture of a string, if the regex matches. -/
def extractFenced (s : String) : Option String :=
  (extractFencedAux s.toList.length s.toList).map String.mk

/-! ### A model of `JSON.parse`

A standard recursive-descent JSON reader (objects, arrays, strings with the
JSON escapes, numbers, literals), failing exactly where strict JSON is
rejected.  `\uXXXX` escapes outside the scalar range fall back to `Char.ofNat`'s
default, an approximation of UTF-16 surrogates never exercised here. -/

/-- Hexadecimal digit value. -/
def hexVal (c : Char) : Option Nat :=
  if c.isDigit then some (c.toNat - 48)
  else if 'a' ≤ c && c ≤ 'f' then some (c.toNat - 87)
  else if 'A' ≤ c && c ≤ 'F' then some (c.toNat - 55)
  else none

/-- Read four hexadecimal digits. -/
def parseHex4 : List Char → Option (Nat × List Char)
  | a :: b :: c :: d :: rest => do
    let ha ← hexVal a
    let hb ← hexVal b
    let hc ← hexVal c
    let hd ← hexVal d
    some (((ha * 16 + hb) * 16 + hc) * 16 + hd, rest)
  | _ => none

/-- Read a JSON string body (after the opening quote) up to the closing
quote, decoding escapes; raw control characters are rejected. -/
def parseJsonStringAux (fuel : Nat) (cs : List Char) : Option (List Char × List Char) :=
  match fuel with
  | 0 => none
  | fuel + 1 =>
    match cs with
    | [] => none
    | c :: rest =>
      if c = '"' then some ([], rest)
      else if c = '\\' then
        match rest with
        | [] => none
        | e :: rest2 =>
          let esc : Option (Char × List Char) :=
            if e = '"' then some ('"', rest2)
            else if e = '\\' then some ('\\', rest2)
            else if e = '/' then some ('/', rest2)
            else if e = 'b' then some (Char.ofNat 8, rest2)
            else if e = 'f' then some (Char.ofNat 12, rest2)
            else if e = 'n' then some ('\n', rest2)
            else if e = 'r' then some ('\r', rest2)
            else if e = 't' then some ('\t', rest2)
            else if e = 'u' then (parseHex4 rest2).map (fun p => (Char.ofNat p.1, p.2))
            else none
          match esc with
          | none => none
          | some (ch, rest3) =>
            match parseJsonStringAux fuel rest3 with
            | some (s, r) => some (ch :: s, r)
            | none => none
      else if c.toNat < 32 then none
      else
        match parseJsonStringAux fuel rest with
        | some (s, r) => some (c :: s, r)
        | none => none

/-- Decimal digits to a natural number. -/
def digitsToNat (ds : List Char) : Nat :=
  ds.foldl (fun acc d => acc * 10 + (d.toNat - 48)) 0

/-- Read a JSON numeral (`-?(0|[1-9][0-9]*)(\.[0-9]+)?([eE][+-]?[0-9]+)?`). -/
def parseJsonNumber (cs : List Char) : Option (Rat × List Char) :=
  let signed :=
    match cs with
    | c :: rest => if c = '-' then (true, rest) else (false, cs)
    | [] => (false, cs)
  let neg := signed.1
  let cs1 := signed.2
  let intDigits := cs1.takeWhile Char.isDigit
  let cs2 := cs1.dropWhile Char.isDigit
  if intDigits.isEmpty then none
  else if intDigits.head? = some '0' && intDigits.length > 1 then none
  else
    let fracSplit :=
      match cs2 with
      | '.' :: rest => (rest.takeWhile Char.isDigit, rest.dropWhile Char.isDigit)
      | _ => ([], cs2)
    let fracDigits := fracSplit.1
    let cs3 := fracSplit.2
    if cs2.head? = some '.' && fracDigits.isEmpty then none
    else
      let expPart : Option (Int × List Char) :=
        match cs3 with
        | e :: rest =>
          if e = 'e' || e = 'E' then
            let signedExp :=
              match rest with
              | s :: r2 =>
                if s = '+' then ((1 : Int), r2)
                else if s = '-' then ((-1 : Int), r2)
                else ((1 : Int), rest)
              | [] => ((1 : Int), rest)
            let expDigits := signedExp.2.takeWhile Char.isDigit
            let rest2 := signedExp.2.dropWhile Char.isDigit
            if expDigits.isEmpty then none
            else some (signedExp.1 * (digitsToNat expDigits : Int), rest2)
          else some (0, cs3)
        | [] => some (0, cs3)
      match expPart with
      | none => none
      | some (e, rest) =>
        let mag : Int := digitsToNat (intDigits ++ fracDigits)
        let mantissa : Int := if neg then -mag else mag
        some ((mantissa : Rat) * (10 : Rat) ^ (e - (fracDigits.length : Int)), rest)

/-- JSON whitespace. -/
def jsonWsChar (c : Char) : Bool :=
  c = ' ' || c = '\t' || c = '\n' || c = '\r'

/-- Skip JSON whitespace. -/
def skipJsonWs (cs : List Char) : List Char := cs.dropWhile jsonWsChar

mutual

/-- Read one JSON value positioned at its first character. -/
def parseJsonVal (fuel : Nat) (cs : List Char) : Option (JValue × List Char) :=
  match fuel with
  | 0 => none
  | fuel + 1 =>
    match cs with
    | [] => none
    | c :: rest =>
      if c = '"' then
        match parseJsonStringAux rest.length rest with
        | some (s, r) => some (.str (String.mk s), r)
        | none => none
      else if c = '{' then parseJsonObjBody fuel (skipJsonWs rest)
      else if c = '[' then parseJsonArrBody fuel (skipJsonWs rest)
      else if "true".toList.isPrefixOf cs then some (.bool true, cs.drop 4)
      else if "false".toList.isPrefixOf cs then some (.bool false, cs.drop 5)
      else if "null".toList.isPrefixOf cs then some (.null, cs.drop 4)
      else
        match parseJsonNumber cs with
        | some (q, r) => some (.num q, r)
        | none => none
termination_by structural fuel

/-- Read an object body (whitespace after `{` already skipped). -/
def parseJsonObjBody (fuel : Nat) (cs : List Char) : Option (JValue × List Char) :=
  match fuel with
  | 0 => none
  | fuel + 1 =>
    match cs with
    | '}' :: rest => some (.obj [], rest)
    | _ => (parseJsonMembers fuel cs).map (fun p => (.obj p.1, p.2))
termination_by structural fuel

/-- Read one or more `"key": value` members. -/
def parseJsonMembers (fuel : Nat) (cs : List Char) :
    Option (List (String × JValue) × List Char) :=
  match fuel with
  | 0 => none
  | fuel + 1 =>
    match cs with
    | '"' :: rest =>
      match parseJsonStringAux rest.length rest with
      | none => none
      | some (key, afterKey) =>
        match skipJsonWs afterKey with
        | ':' :: afterColon =>
          match parseJsonVal fuel (skipJsonWs afterColon) with
          | none => none
          | some (v, afterVal) =>
            match skipJsonWs afterVal with
            | ',' :: afterComma =>
              match parseJsonMembers fuel (skipJsonWs afterComma) with
              | some (fields, r) => some ((String.mk key, v) :: fields, r)
              | none => none
            | '}' :: afterBrace => some ([(String.mk key, v)], afterBrace)
            | _ => none
        | _ => none
    | _ => none
termination_by structural fuel

/-- Read an array body (whitespace after `[` already skipped). -/
def parseJsonArrBody (fuel : Nat) (cs : List Char) : Option (JValue × List Char) :=
  match fuel with
  | 0 => none
  | fuel + 1 =>
    match cs with
    | ']' :: rest => some (.arr [], rest)
    | _ => (parseJsonElems fuel cs).map (fun p => (.arr p.1, p.2))
termination_by structural fuel

/-- Read one or more array elements. -/
def parseJsonElems (fuel : Nat) (cs : List Char) : Option (List JValue × List Char) :=
  match fuel with
  | 0 => none
  | fuel + 1 =>
    match parseJsonVal fuel cs with
    | none => none
    | some (v, afterVal) =>
      match skipJsonWs afterVal with
      | ',' :: afterComma =>
        match parseJsonElems fuel (skipJsonWs afterComma) with
        | some (vs, r) => some (v :: vs, r)
        | none => none
      | ']' :: afterBracket => some ([v], afterBracket)
      | _ => none
termination_by structural fuel

end

/-- Model of `JSON.parse`: a single JSON value with surrounding whitespace
and nothing else; `none` models a thrown `SyntaxError` (always caught in
the source). -/
def parseJson (s : String) : Option JValue :=
  let cs := skipJsonWs s.toList
  match parseJsonVal (3 * cs.length + 3) cs with
  | some (v, rest) => if (skipJsonWs rest).isEmpty then some v else none
  | none => none

/-! ### Protocol data model (`lib/translator`, A2A protocol types) -/

/-- Extension URI key of the AgentStack trajectory extension. -/
def AGENTSTACK_EXTENSION_URIS.TRAJECTORY : String :=
  "https://a2a-extensions.agentstack.beeai.dev/ui/trajectory/v1"

/-- Extension URI key of the AgentStack citation extension. -/
def AGENTSTACK_EXTENSION_URIS.CITATION : String :=
  "https://a2a-extensions.agentstack.beeai.dev/ui/citation/v1"

/-- Backend content-type tags (`CONTENT_TYPES` constant object). -/
def CONTENT_TYPES.THINKING : String := "thinking"

/-- Backend content-type tag `response`. -/
def CONTENT_TYPES.RESPONSE : String := "response"

/-- Backend content-type tag `tool_call`. -/
def CONTENT_TYPES.TOOL_CALL : String := "tool_call"

/-- Backend content-type tag `tool_result`. -/
def CONTENT_TYPES.TOOL_RESULT : String := "tool_result"

/-- Backend content-type tag `status`. -/
def CONTENT_TYPES.STATUS : String := "status"

/-- Discriminant of an `A2APart` (`kind: 'text' | 'file' | 'data'`). -/
inductive PartKind : Type where
  | text | file | data
deriving DecidableEq

/-- The `file` payload of a part; `name` and `mimeType` are required by the
declared interface, `bytes` (base64) and `uri` optional. -/
structure A2AFile : Type where
  name : String
  mimeType : String
  bytes : Option String := none
  uri : Option String := none

/-- An atomic unit of agent output (`A2APart`). -/
structure A2APart : Type where
  kind : PartKind
  text : Option String := none
  file : Option A2AFile := none
  data : Option JValue := none
  metadata : Option JValue := none

/-- An ordered group of parts produced by one agent turn (`A2AArtifact`). -/
structure A2AArtifact : Type where
  artifactId : String
  name : Option String := none
  description : Option String := none
  parts : List A2APart
  metadata : Option JValue := none

/-- Lifecycle states of a task. -/
inductive TaskState : Type where
  | submitted | working | completed | failed
deriving DecidableEq

/-- The top-level unit of work (`A2ATask`); `status.message` and `history`
are opaque to the translator. -/
structure A2ATask : Type where
  id : String
  state : TaskState
  statusMessage : Option JValue := none
  artifacts : List A2AArtifact
  history : List JValue := []

/-- Normalized view of trajectory extension metadata (`TrajectoryData`).
`none` covers both an absent field and an explicit `null`; every use in the
source (truthiness, optional chaining, `||`) treats the two alike. -/
structure TrajectoryData : Type where
  title : Option String := none
  content : Option String := none
  group_id : Option String := none
  content_type : Option String := none

/-! ### Carbon AI Chat message model -/

/-- Status of a chain-of-thought step (`ChainOfThoughtStepStatus`). -/
inductive ChainOfThoughtStepStatus : Type where
  | processing | success | error
deriving DecidableEq

/-- One chain-of-thought step.  `request` holds the value placed in
`request.args` and `response` the value placed in `response.content`;
fields that the source may fill with arbitrary runtime data are `JValue`. -/
structure ChainOfThoughtStep : Type where
  title : Option JValue := none
  tool_name : Option JValue := none
  description : Option JValue := none
  request : Option JValue := none
  response : Option JValue := none
  status : Option ChainOfThoughtStepStatus := none

/-- One reasoning step. -/
structure ReasoningStep : Type where
  content : String

/-- Open state of a reasoning block (`ReasoningStepOpenState`; `opened`
models the `OPEN` member, which the source never produces). -/
inductive ReasoningStepOpenState : Type where
  | opened | closed
deriving DecidableEq

/-- A reasoning-steps payload. -/
structure ReasoningSteps : Type where
  steps : List ReasoningStep
  openState : Option ReasoningStepOpenState := none

/-- A chain-of-thought payload. -/
structure ChainOfThought : Type where
  steps : List ChainOfThoughtStep

/-- The translator's output unit (`CarbonMessage`): a response-type tag and
at most one of four kind-specific payload fields, plus a metadata
passthrough. -/
structure CarbonMessage : Type where
  response_type : String
  text : Option String := none
  reasoning_steps : Option ReasoningSteps := none
  chain_of_thought : Option ChainOfThought := none
  user_defined : Option JValue := none
  metadata : Option JValue := none

/-! ### Helper functions of the translator -/

/-- Display conversion used by template literals (approximation of the
JavaScript `String(v)` for the non-string values that typed usage never
produces; exact on strings, booleans, `null` and integer numerals). -/
def jsToStringAux (fuel : Nat) : JValue → String
  | .null => "null"
  | .bool b => if b then "true" else "false"
  | .num q => if q.den = 1 then toString q.num else toString q
  | .str s => s
  | .obj _ => "[object Object]"
  | .arr xs =>
    match fuel with
    | 0 => ""
    | f + 1 =>
      String.intercalate "," (xs.map (fun v =>
        match v with
        | .null => ""
        | w => jsToStringAux f w))

/-- Template-literal interpolation of a runtime value. -/
def jsToString (v : JValue) : String := jsToStringAux 1000 v

/-- Read a trajectory field through the `as TrajectoryData` cast: the four
declared fields are optional strings; a value of any other runtime type is
outside the declared interface and reads as absent. -/
def jvStrField (v : JValue) (k : String) : Option String :=
  match v.get? k with
  | some (.str s) => some s
  | _ => none

/-- The `as TrajectoryData` cast of an extension-metadata value. -/
def jvToTrajectory (v : JValue) : TrajectoryData :=
  { title := jvStrField v "title"
    content := jvStrField v "content"
    group_id := jvStrField v "group_id"
    content_type := jvStrField v "content_type" }

/-- Model of `extractTrajectoryFromMetadata`: the value at the trajectory
extension URI, accepted whenever it is truthy and `typeof` `object`. -/
def extractTrajectoryFromMetadata (metadata : Option JValue) : Option TrajectoryData :=
  match metadata with
  | none => none
  | some md =>
    match md.get? AGENTSTACK_EXTENSION_URIS.TRAJECTORY with
    | some v => if v.truthy && v.typeofObject then some (jvToTrajectory v) else none
    | none => none

/-- Result record of `parseTrajectoryContent`. -/
structure ParsedContent : Type where
  type : String
  toolName : Option JValue := none
  args : Option JValue := none
  result : Option JValue := none
  status : Option JValue := none

/-- Model of `parseTrajectoryContent`: extract a fenced JSON block; when it
parses and carries a `tool_call`/`tool_result` discriminator, read the tool
fields from the flat or legacy `tool_data` shape; otherwise fall back to
plain-text keyword analysis. -/
def parseTrajectoryContent (content : Option String) : ParsedContent :=
  match content with
  | none => { type := "text" }
  | some c =>
    if c = "" then { type := "text" }
    else
      let fromJson : Option ParsedContent :=
        match (extractFenced c).bind (fun cap => parseJson (strTrim cap)) with
        | none => none
        | some parsed =>
          let toolData := parsed.get? "tool_data"
          if jvEqStr (parsed.get? "type") "tool_call"
              || jvEqStr (parsed.get? "content_type") "tool_call" then
            some { type := "tool_call"
                   toolName := jvOr (parsed.get? "tool_name")
                     (toolData.bind (fun td => td.get? "tool_name"))
                   args := jvOr (parsed.get? "args")
                     (toolData.bind (fun td => td.get? "args")) }
          else if jvEqStr (parsed.get? "type") "tool_result"
              || jvEqStr (parsed.get? "content_type") "tool_result" then
            some { type := "tool_result"
                   toolName := jvOr (parsed.get? "tool_name")
                     (toolData.bind (fun td => td.get? "tool_name"))
                   result := jvOr (parsed.get? "result")
                     (jvOr (parsed.get? "result_preview")
                       (toolData.bind (fun td => td.get? "result_preview")))
                   status := jvOr (parsed.get? "status")
                     (jvOr (toolData.bind (fun td => td.get? "status"))
                       (some (.str "success"))) }
          else none
      match fromJson with
      | some pc => pc
      | none =>
        if strContains c "**Arguments:**" || strContains (strToLower c) "calling" then
          { type := "tool_call" }
        else if strContains c "**Result:**" || strContains c "**Status:**" then
          { type := "tool_result" }
        else
          { type := "text" }

/-- Model of `inferContentTypeFromTitle`: case-insensitive phrase sets, in
source order. -/
def inferContentTypeFromTitle (title : Option String) : Option String :=
  match title with
  | none => none
  | some t =>
    if t = "" then none
    else
      let lowerTitle := strToLower t
      if strContains lowerTitle "calling" || strContains lowerTitle "tool call" then
        some CONTENT_TYPES.TOOL_CALL
      else if strContains lowerTitle "result" || strContains lowerTitle "completed" then
        some CONTENT_TYPES.TOOL_RESULT
      else if strContains lowerTitle "thinking" || strContains lowerTitle "reasoning" then
        some CONTENT_TYPES.THINKING
      else if strContains lowerTitle "status" || strContains lowerTitle "progress" then
        some CONTENT_TYPES.STATUS
      else none

/-! ### Tool-name extraction regexes -/

/-- Case-insensitive literal prefix match (regex `/i` flag on ASCII). -/
def charsCiPrefix (pat : List Char) (cs : List Char) : Bool :=
  (pat.map Char.toLower).isPrefixOf (cs.map Char.toLower)

/-- Greedy `\s*` then `\S+`: capture the next word if any. -/
def captureWord (cs : List Char) : Option String :=
  let rest := cs.dropWhile Char.isWhitespace
  let word := rest.takeWhile (fun c => !c.isWhitespace)
  if word.isEmpty then none else some (String.mk word)

/-- Try `(?:Calling|Tool Call:?)\s*(\S+)` at one position, alternatives in
regex order with the backtracking of the optional colon. -/
def matchCallAt (cs : List Char) : Option String :=
  let tryCalling : Option String :=
    if charsCiPrefix "calling".toList cs then captureWord (cs.drop 7) else none
  match tryCalling with
  | some s => some s
  | none =>
    if charsCiPrefix "tool call".toList cs then
      let rest := cs.drop 9
      let withColon : Option String :=
        match rest with
        | ':' :: r2 => captureWord r2
        | _ => none
      match withColon with
      | some s => some s
      | none => captureWord rest
    else none

/-- Leftmost match of the tool-call title regex. -/
def scanCall : List Char → Option String
  | [] => none
  | c :: cs =>
    match matchCallAt (c :: cs) with
    | some s => some s
    | none => scanCall cs

/-- Capture of `title?.match(/(?:Calling|Tool Call:?)\s*(\S+)/i)?.[1]`. -/
def extractCallToolName (title : Option String) : Option String :=
  match title with
  | none => none
  | some t => scanCall t.toList

/-- Try the anchored result regex with capture length `k`. -/
def tryResultAt (cs : List Char) (k : Nat) : Option String :=
  let cap := cs.take k
  let rest := (cs.drop k).dropWhile Char.isWhitespace
  if charsCiPrefix "result".toList rest then some (String.mk cap) else none

/-- Greedy `\S+`: try capture lengths from longest down. -/
def resultDownFrom : Nat → List Char → Option String
  | 0, _ => none
  | k + 1, cs =>
    match tryResultAt cs (k + 1) with
    | some s => some s
    | none => resultDownFrom k cs

/-- Capture of `title?.match(/^(\S+)\s*Result/i)?.[1]`. -/
def extractResultToolName (title : Option String) : Option String :=
  match title with
  | none => none
  | some t =>
    let cs := t.toList
    let runLen := (cs.takeWhile (fun c => !c.isWhitespace)).length
    resultDownFrom runLen cs

/-! ### Trajectory-to-message constructors -/

/-- Model of `a || b` with a present default (template-literal fallback). -/
def strOrD (a : Option String) (b : String) : String :=
  match a with
  | some s => if s != "" then s else b
  | none => b

/-- Model of `a || d` on a runtime value with a present default. -/
def jvOrD (a : Option JValue) (d : JValue) : JValue :=
  match jvWhenTruthy a with
  | some v => v
  | none => d

/-- Tool-name resolution `parsedContent.toolName || titleCapture || 'tool'`. -/
def resolveToolName (pcName : Option JValue) (titleName : Option String) : JValue :=
  match jvWhenTruthy pcName with
  | some v => v
  | none =>
    match titleName with
    | some s => .str s
    | none => .str "tool"

/-- Step description `content?.replace(/```[\s\S]*?```/g, '').trim() ||
undefined`: the content with fenced blocks stripped and trimmed, absent
when empty. -/
def trajDescription (content : Option String) : Option String :=
  match content with
  | none => none
  | some c =>
    let d := strTrim (stripFenced c)
    if d = "" then none else some d

/-- Case-insensitive containment of an already-lowercase pattern in an
optional string (`s?.toLowerCase().includes(pat)` with falsy fallback). -/
def optContainsLower (s : Option String) (pat : String) : Bool :=
  match s with
  | some s0 => strContains (strToLower s0) pat
  | none => false

/-- Model of `createToolCallFromTrajectory`. -/
def createToolCallFromTrajectory (trajectory : TrajectoryData)
    (parsedContent : ParsedContent) : CarbonMessage :=
  let toolName := resolveToolName parsedContent.toolName (extractCallToolName trajectory.title)
  { response_type := "chain_of_thought"
    chain_of_thought := some { steps := [
      { title := some (.str (strOrD trajectory.title ("Calling " ++ jsToString toolName)))
        tool_name := some toolName
        description := (trajDescription trajectory.content).map JValue.str
        request := jvWhenTruthy parsedContent.args
        status := some .processing }] } }

/-- Model of `createToolResultFromTrajectory`. -/
def createToolResultFromTrajectory (trajectory : TrajectoryData)
    (parsedContent : ParsedContent) : CarbonMessage :=
  let toolName := resolveToolName parsedContent.toolName (extractResultToolName trajectory.title)
  let isError := jvEqStr parsedContent.status "error"
    || optContainsLower trajectory.content "error"
    || optContainsLower trajectory.title "failed"
  { response_type := "chain_of_thought"
    chain_of_thought := some { steps := [
      { title := some (.str (strOrD trajectory.title (jsToString toolName ++ " completed")))
        tool_name := some toolName
        description := (trajDescription trajectory.content).map JValue.str
        response := jvWhenTruthy parsedContent.result
        status := some (if isError then .error else .success) }] } }

/-- Model of `createReasoningFromTrajectory`. -/
def createReasoningFromTrajectory (trajectory : TrajectoryData) : CarbonMessage :=
  let content := strOrD trajectory.content (strOrD trajectory.title "")
  let stepContent :=
    if strTruthy trajectory.title then
      "**" ++ trajectory.title.getD "" ++ "**\n\n" ++ content
    else content
  { response_type := "reasoning_steps"
    reasoning_steps := some { steps := [{ content := stepContent }]
                              openState := some .closed } }

/-- Model of `createStatusFromTrajectory`. -/
def createStatusFromTrajectory (trajectory : TrajectoryData) : CarbonMessage :=
  { response_type := "user_defined"
    user_defined := some (objOf [
      ("type", some (.str "status_message")),
      ("message", (strOr trajectory.title trajectory.content).map JValue.str),
      ("metadata", some (objOf [("group_id", trajectory.group_id.map JValue.str)]))]) }

/-- The classification line of `translateTrajectory`:
`contentType = explicitType || inferredType || parsedContent.type`. -/
def trajContentType (trajectory : TrajectoryData) : String :=
  strOrD trajectory.content_type
    (strOrD (inferContentTypeFromTitle trajectory.title)
      (parseTrajectoryContent trajectory.content).type)

/-- Model of `translateTrajectory`: drop an empty fragment, classify, and
route to the matching constructor; untyped fragments with content become
reasoning steps. -/
def translateTrajectory (trajectory : TrajectoryData) : Option CarbonMessage :=
  if !strTruthy trajectory.title && !strTruthy trajectory.content then none
  else
    let parsedContent := parseTrajectoryContent trajectory.content
    let contentType := trajContentType trajectory
    if contentType = CONTENT_TYPES.TOOL_CALL then
      some (createToolCallFromTrajectory trajectory parsedContent)
    else if contentType = CONTENT_TYPES.TOOL_RESULT then
      some (createToolResultFromTrajectory trajectory parsedContent)
    else if contentType = CONTENT_TYPES.THINKING then
      some (createReasoningFromTrajectory trajectory)
    else if contentType = CONTENT_TYPES.STATUS then
      some (createStatusFromTrajectory trajectory)
    else if strTruthy trajectory.content then
      some (createReasoningFromTrajectory trajectory)
    else none

/-! ### Part translators -/

/-- Model of `translateMetadataPart`: parts carrying a direct
`content_type` metadata tag (thinking, response, status). -/
def translateMetadataPart (part : A2APart) : Option CarbonMessage :=
  let contentType := part.metadata.bind (fun md => md.get? "content_type")
  if jvEqStr contentType CONTENT_TYPES.THINKING then
    some { response_type := "reasoning_steps"
           reasoning_steps := some { steps := [{ content := part.text.getD "" }]
                                     openState := some .closed } }
  else if jvEqStr contentType CONTENT_TYPES.RESPONSE then
    some { response_type := "text", text := part.text }
  else if jvEqStr contentType CONTENT_TYPES.STATUS then
    some { response_type := "user_defined"
           user_defined := some (objOf [
             ("type", some (.str "status_message")),
             ("message", part.text.map JValue.str),
             ("metadata", part.metadata)]) }
  else none

/-- Model of `translateDataPart`: data parts tagged `tool_call` or
`tool_result` in their payload. -/
def translateDataPart (part : A2APart) : Option CarbonMessage :=
  let dget := fun (k : String) => part.data.bind (fun d => d.get? k)
  let dataType := dget "type"
  if jvEqStr dataType "tool_call" then
    some { response_type := "chain_of_thought"
           chain_of_thought := some { steps := [
             { title := some (jvOrD (dget "title")
                 (.str ("Calling " ++ jsToString (jvOrD (dget "tool_name") (.str "tool")))))
               tool_name := dget "tool_name"
               description := dget "description"
               request := jvWhenTruthy (dget "args")
               status := some .processing }] } }
  else if jvEqStr dataType "tool_result" then
    some { response_type := "chain_of_thought"
           chain_of_thought := some { steps := [
             { title := some (jvOrD (dget "title")
                 (.str (jsToString (jvOrD (dget "tool_name") (.str "Tool")) ++ " completed")))
               tool_name := dget "tool_name"
               description := dget "description"
               request := jvWhenTruthy (dget "args")
               response := jvWhenTruthy (dget "result")
               status := some (if jvTruthy (dget "error") then .error else .success) }] } }
  else none

/-- Model of `base64ToDataUrl`. -/
def base64ToDataUrl (b64 : String) (mimeType : String) : String :=
  "data:" ++ mimeType ++ ";base64," ++ b64

/-- Model of `translateFilePart`: image MIME types first, then chart-named
files, then a generic attachment. -/
def translateFilePart (part : A2APart) (artifact : Option A2AArtifact) :
    Option CarbonMessage :=
  match part.file with
  | none => none
  | some file =>
    let mimeType := file.mimeType
    if strStartsWith mimeType "image/" then
      some { response_type := "image"
             user_defined := some (objOf [
               ("type", some (.str "image")),
               ("url", some (.str (strOrD file.uri (base64ToDataUrl (file.bytes.getD "") mimeType)))),
               ("alt", some (.str file.name)),
               ("caption", (artifact.bind (fun a => a.description)).map JValue.str)]) }
    else if strContains file.name "chart" || strContains file.name "graph" then
      some { response_type := "user_defined"
             user_defined := some (objOf [
               ("type", some (.str "chart")),
               ("imageUrl", some (.str (strOrD file.uri (base64ToDataUrl (file.bytes.getD "") mimeType)))),
               ("title", (artifact.bind (fun a => a.name)).map JValue.str),
               ("description", (artifact.bind (fun a => a.description)).map JValue.str)]) }
    else
      some { response_type := "user_defined"
             user_defined := some (objOf [
               ("type", some (.str "file_attachment")),
               ("fileName", some (.str file.name)),
               ("mimeType", some (.str file.mimeType)),
               ("downloadUrl", file.uri.map JValue.str),
               ("size", file.bytes.map (fun b => JValue.num (b.length : Rat)))]) }

/-- Model of `translateGenericDataPart`: a non-empty array whose first
element has `typeof` `object` becomes a data table with the first element's
`Object.keys` as columns (throwing `TypeError` when that first element is
`null`); any other truthy payload is passed through as structured data. -/
def translateGenericDataPart (part : A2APart) : Except JsError (Option CarbonMessage) :=
  match part.data with
  | none => .ok none
  | some data =>
    if !data.truthy then .ok none
    else
      let structured : Except JsError (Option CarbonMessage) :=
        .ok (some { response_type := "user_defined"
                    user_defined := some (objOf [
                      ("type", some (.str "structured_data")),
                      ("data", some data)]) })
      match data with
      | .arr (x :: xs) =>
        if x.typeofObject then
          match objectKeys x with
          | .error e => .error e
          | .ok cols =>
            .ok (some { response_type := "user_defined"
                        user_defined := some (objOf [
                          ("type", some (.str "data_table")),
                          ("columns", some (.arr (cols.map JValue.str))),
                          ("rows", some (.arr (x :: xs)))]) })
        else structured
      | _ => structured

/-- The conditional metadata attachment
`if (message && extensionMetadata) message.metadata = extensionMetadata`. -/
def attachMetadata (message : Option CarbonMessage) (extensionMetadata : Option JValue) :
    Option CarbonMessage :=
  match message, extensionMetadata with
  | some m, some v => if v.truthy then some { m with metadata := some v } else some m
  | some m, none => some m
  | none, _ => none

/-- Model of `translatePart`: part-level trajectory metadata, then direct
`content_type` metadata, then typed data parts, then the standard kinds. -/
def translatePart (part : A2APart) (artifact : Option A2AArtifact) :
    Except JsError (Option CarbonMessage) :=
  let extensionMetadata := artifact.bind (fun a => a.metadata)
  match extractTrajectoryFromMetadata part.metadata with
  | some partTrajectory => .ok (translateTrajectory partTrajectory)
  | none =>
    if jvTruthy (part.metadata.bind (fun md => md.get? "content_type")) then
      .ok (attachMetadata (translateMetadataPart part) extensionMetadata)
    else if part.kind == PartKind.data && jvTruthy (part.data.bind (fun d => d.get? "type")) then
      .ok (attachMetadata (translateDataPart part) extensionMetadata)
    else
      match part.kind with
      | .text => .ok (some { response_type := "text", text := part.text, metadata := extensionMetadata })
      | .file => .ok (attachMetadata (translateFilePart part artifact) extensionMetadata)
      | .data =>
        match translateGenericDataPart part with
        | .error e => .error e
        | .ok m => .ok (attachMetadata m extensionMetadata)

/-- Model of `translateStreamingPart`: trajectory metadata first, else a
minimal artifact wrapper preserves the metadata for `translatePart`. -/
def translateStreamingPart (part : A2APart) (metadata : Option JValue) :
    Except JsError (Option CarbonMessage) :=
  match extractTrajectoryFromMetadata metadata with
  | some trajectoryData => .ok (translateTrajectory trajectoryData)
  | none =>
    let artifact : Option A2AArtifact :=
      if jvTruthy metadata then
        some { artifactId := "", parts := [], metadata := metadata }
      else none
    translatePart part artifact

/-- Inner loop of `translateTask` over one artifact's parts, pushing each
translated message onto the accumulator. -/
def translatePartsLoop (parts : List A2APart) (artifact : A2AArtifact)
    (acc : List CarbonMessage) : Except JsError (List CarbonMessage) :=
  match parts with
  | [] => .ok acc
  | part :: rest =>
    match translatePart part (some artifact) with
    | .error e => .error e
    | .ok (some m) => translatePartsLoop rest artifact (acc ++ [m])
    | .ok none => translatePartsLoop rest artifact acc

/-- Outer loop of `translateTask` over artifacts: the artifact-level
trajectory message (when any) is pushed before the artifact's parts. -/
def translateTaskLoop (artifacts : List A2AArtifact) (acc : List CarbonMessage) :
    Except JsError (List CarbonMessage) :=
  match artifacts with
  | [] => .ok acc
  | artifact :: rest =>
    match translatePartsLoop artifact.parts artifact
        (match extractTrajectoryFromMetadata artifact.metadata with
         | some artifactTrajectory =>
           match translateTrajectory artifactTrajectory with
           | some m => acc ++ [m]
           | none => acc
         | none => acc) with
    | .error e => .error e
    | .ok acc2 => translateTaskLoop rest acc2

/-- Model of `translateTask`: batch translation of a complete task. -/
def translateTask (task : A2ATask) : Except JsError (List CarbonMessage) :=
  translateTaskLoop task.artifacts []

/-! ### Static factory methods -/

/-- Model of the static `createToolCallMessage`. -/
def createToolCallMessage (toolName : String) (args : Option JValue)
    (description : Option String) : CarbonMessage :=
  { response_type := "chain_of_thought"
    chain_of_thought := some { steps := [
      { title := some (.str ("Calling " ++ toolName))
        tool_name := some (.str toolName)
        description := description.map JValue.str
        request := jvWhenTruthy args
        status := some .processing }] } }

/-- Model of the static `createToolResultMessage` (the optional `error`
flag reads as its truthiness). -/
def createToolResultMessage (toolName : String) (result : JValue)
    (args : Option JValue) (error : Bool) (description : Option String) : CarbonMessage :=
  { response_type := "chain_of_thought"
    chain_of_thought := some { steps := [
      { title := some (.str (toolName ++ " " ++ (if error then "failed" else "completed")))
        tool_name := some (.str toolName)
        description := description.map JValue.str
        request := jvWhenTruthy args
        response := some result
        status := some (if error then .error else .success) }] } }

/-- Model of the static `createReasoningMessage`. -/
def createReasoningMessage (content : String) (openState : ReasoningStepOpenState) :
    CarbonMessage :=
  { response_type := "reasoning_steps"
    reasoning_steps := some { steps := [{ content := content }]
                              openState := some openState } }

/-! ### Citation extractor (`lib/a2a/index.ts`) -/

/-- Model of `typeof item === 'object' && item !== null`. -/
def isObjectNonNull : JValue → Bool
  | .obj _ => true
  | .arr _ => true
  | _ => false

/-- Model of `extractCitations`: the value at the citation extension URI as
a bare object, an array of objects, or a wrapper with a `citations` array;
anything else yields the empty list. -/
def extractCitations (metadata : Option JValue) : List JValue :=
  match metadata with
  | none => []
  | some md =>
    match md.get? AGENTSTACK_EXTENSION_URIS.CITATION with
    | none => []
    | some citationData =>
      if !citationData.truthy then []
      else
        match citationData with
        | .arr items => items.filter isObjectNonNull
        | .obj fields =>
          match assocLast fields "citations" with
          | some (.arr items) => items.filter isObjectNonNull
          | _ => [citationData]
        | _ => []

/-! ### Observables used by the statements -/

/-- Names of the populated kind-specific payload fields of a message, in
declaration order. -/
def payloadFieldNames (m : CarbonMessage) : List String :=
  (if m.text.isSome then ["text"] else [])
    ++ (if m.reasoning_steps.isSome then ["reasoning_steps"] else [])
    ++ (if m.chain_of_thought.isSome then ["chain_of_thought"] else [])
    ++ (if m.user_defined.isSome then ["user_defined"] else [])

/-- First chain-of-thought step of a message, if any. -/
def msgStep (m : CarbonMessage) : Option ChainOfThoughtStep :=
  m.chain_of_thought.bind (fun c => c.steps.head?)

/-- Status of the first chain-of-thought step of a message. -/
def msgStepStatus (m : CarbonMessage) : Option ChainOfThoughtStepStatus :=
  (msgStep m).bind (fun s => s.status)

/-- Tool name of the first chain-of-thought step of a message. -/
def msgToolName (m : CarbonMessage) : Option JValue :=
  (msgStep m).bind (fun s => s.tool_name)

/-- A field of the `user_defined` payload of a message. -/
def udField (m : CarbonMessage) (k : String) : Option JValue :=
  m.user_defined.bind (fun u => u.get? k)

/-! ### Streaming accumulator

The accumulator lives in the repository's `lib/translator` module, of which
only callers ship here; the definitions below are modelled from the spec
(sections 3, 4.4): a per-correlation-key state machine
`absent → processing → (success | error)` emitting opened/updated/finalized
deltas, with terminal steps immutable. -/

/-- Modelled from the spec: one streamed chunk for the accumulator — a
correlation key, the new field values it carries, and its step status
(`lib/translator` holds the missing concrete chunk type). -/
structure AccChunk : Type where
  key : String
  title : Option String := none
  description : Option String := none
  response : Option JValue := none
  status : ChainOfThoughtStepStatus

/-- Modelled from the spec: the in-progress Step held per correlation key
(`lib/translator` holds the missing concrete step state). -/
structure AccStep : Type where
  title : Option String := none
  description : Option String := none
  response : Option JValue := none
  status : ChainOfThoughtStepStatus

/-- Modelled from the spec: the deltas the accumulator emits (new item
opened, item updated, item finalized). -/
inductive AccDelta : Type where
  | opened (key : String)
  | updated (key : String)
  | finalized (key : String)
deriving DecidableEq

/-- Modelled from the spec: session accumulator state — the correlation-key
map in emission order plus a counter for synthesized keys
(`lib/translator` holds the missing concrete session state). -/
structure AccState : Type where
  steps : List (String × AccStep) := []
  dupCount : Nat := 0

/-- Whether a step status is terminal (`success` or `error`). -/
def isTerminal : ChainOfThoughtStepStatus → Bool
  | .processing => false
  | .success => true
  | .error => true

/-- Modelled from the spec: merging a chunk into a processing step — new
non-null fields merge in, descriptive text is replaced wholesale by the
latest non-empty value, response content overwrites. -/
def mergeStep (s : AccStep) (c : AccChunk) : AccStep :=
  { title := match c.title with | some t => some t | none => s.title
    description :=
      match c.description with
      | some d => if d != "" then some d else s.description
      | none => s.description
    response := match c.response with | some r => some r | none => s.response
    status := c.status }

/-- The step opened by the first chunk of a correlation. -/
def newStepOf (c : AccChunk) : AccStep :=
  { title := c.title, description := c.description
    response := c.response, status := c.status }

/-- Synthesized key for a chunk arriving after its correlation closed. -/
def freshKey (st : AccState) (k : String) : String :=
  k ++ "#dup" ++ toString st.dupCount

/-- First-match association lookup in the step map. -/
def assocFind (steps : List (String × AccStep)) (k : String) : Option AccStep :=
  (steps.find? (fun kv => kv.1 == k)).map (fun kv => kv.2)

/-- In-place replacement of a correlation key's step. -/
def assocReplace (steps : List (String × AccStep)) (k : String) (v : AccStep) :
    List (String × AccStep) :=
  steps.map (fun kv => if kv.1 == k then (kv.1, v) else kv)

/-- Modelled from the spec: feeding one chunk — a new key opens a step, a
processing key merges (updated, or finalized on a terminal status), and a
terminal key is never mutated: the chunk is treated as a new, separate
correlation under a synthesized key. -/
def accFeed (st : AccState) (c : AccChunk) : AccState × List AccDelta :=
  match assocFind st.steps c.key with
  | none =>
    let st1 := { st with steps := st.steps ++ [(c.key, newStepOf c)] }
    if isTerminal c.status then (st1, [.opened c.key, .finalized c.key])
    else (st1, [.opened c.key])
  | some s =>
    if isTerminal s.status then
      let k2 := freshKey st c.key
      let st1 := { st with steps := st.steps ++ [(k2, newStepOf c)]
                           dupCount := st.dupCount + 1 }
      if isTerminal c.status then (st1, [.opened k2, .finalized k2])
      else (st1, [.opened k2])
    else
      let st1 := { st with steps := assocReplace st.steps c.key (mergeStep s c) }
      if isTerminal c.status then (st1, [.finalized c.key])
      else (st1, [.updated c.key])

/-- Modelled from the spec: consuming a chunk sequence in order,
concatenating the emitted deltas. -/
def accRun (st : AccState) : List AccChunk → AccState × List AccDelta
  | [] => (st, [])
  | c :: cs =>
    let fed := accFeed st c
    let rest := accRun fed.1 cs
    (rest.1, fed.2 ++ rest.2)

/-! ### Statement-side helpers -/

/-- The payload field a message's kind tag calls for: the field of the same
name, except image messages, which the source gives their payload in
`user_defined`. -/
def expectedPayloadField (rt : String) : String :=
  if rt = "image" then "user_defined" else rt

/-- Well-formedness of a part for the payload invariant: a text-kind part,
or one tagged `content_type: "response"`, carries its text string (the
declared interface leaves `text` optional, and a missing string would
produce a text message with an absent payload). -/
def partTextOk (p : A2APart) : Prop :=
  (p.kind = PartKind.text → p.text.isSome = true) ∧
  (jvEqStr (p.metadata.bind (fun md => md.get? "content_type")) CONTENT_TYPES.RESPONSE = true →
    p.text.isSome = true)

/-- Whether an optional runtime value is an array (`Array.isArray(x)` on a
possibly-absent value). -/
def optIsArray : Option JValue → Bool
  | some (.arr _) => true
  | _ => false

/-- The payload-shape invariant (amended form): exactly one payload field
is populated, and it is the one the message's kind tag calls for. -/
def payloadInv (m : CarbonMessage) : Prop :=
  payloadFieldNames m = [expectedPayloadField m.response_type]

/-- Specification form of the per-artifact part translation: the messages
of the parts in list order, dropped fragments omitted. -/
def partsMessages (a : A2AArtifact) : List A2APart → Except JsError (List CarbonMessage)
  | [] => .ok []
  | p :: rest =>
    match translatePart p (some a) with
    | .error e => .error e
    | .ok mo =>
      match partsMessages a rest with
      | .error e => .error e
      | .ok ms => .ok (mo.toList ++ ms)

/-- Specification form of the batch translation: per artifact, the
artifact-level trajectory message (when present and translatable) followed
by the artifact's part messages in order, artifacts in list order. -/
def taskMessages : List A2AArtifact → Except JsError (List CarbonMessage)
  | [] => .ok []
  | a :: rest =>
    match partsMessages a a.parts with
    | .error e => .error e
    | .ok pms =>
      match taskMessages rest with
      | .error e => .error e
      | .ok tms =>
        .ok ((extractTrajectoryFromMetadata a.metadata >>= translateTrajectory).toList
          ++ pms ++ tms)

/-! ### Concrete inputs used by the claim theorems -/

/-- Trajectory with an explicit `tool_result` tag whose embedded JSON
claims `tool_call` (the precedence test of the spec). -/
def c1traj : TrajectoryData :=
  { content_type := some "tool_result"
    content := some "```json\n\x7b\"type\": \"tool_call\", \"tool_name\": \"search_web\"\x7d\n```" }

/-- Trajectory titled `search_web Result` whose content contains `error`. -/
def c4traj : TrajectoryData :=
  { title := some "search_web Result", content := some "An error occurred" }

/-- The tool-result message of `c4traj`. -/
def c4msg : CarbonMessage :=
  createToolResultFromTrajectory c4traj (parseTrajectoryContent c4traj.content)

/-- Trajectory whose title says `FAILED` in upper case only: the code
flags it as an error although `"failed"` is not a case-sensitive
substring of the title. -/
def c4x : TrajectoryData :=
  { title := some "search_web Result FAILED", content := some "done" }

/-- Trajectory titled `Calling search_web` with no explicit tag. -/
def c5traj : TrajectoryData := { title := some "Calling search_web" }

/-- Image file part (PNG with a URI). -/
def c2part : A2APart :=
  { kind := .file
    file := some { name := "photo.png", mimeType := "image/png", uri := some "http://x/photo.png" } }

/-- The message `c2part` translates to: tagged `image`, payload in
`user_defined`. -/
def c2msg : CarbonMessage :=
  { response_type := "image"
    user_defined := some (.obj [
      ("type", .str "image"),
      ("url", .str "http://x/photo.png"),
      ("alt", .str "photo.png")]) }

/-- Artifact-level trajectory metadata used by the batch-order test. -/
def c3trajMd : JValue :=
  .obj [(AGENTSTACK_EXTENSION_URIS.TRAJECTORY,
    .obj [("title", .str "Thinking"), ("content", .str "pondering")])]

/-- Task with two artifacts: trajectory metadata plus a text part, then an
image file part. -/
def c3task : A2ATask :=
  { id := "t1"
    state := .completed
    artifacts := [
      { artifactId := "a1"
        parts := [{ kind := .text, text := some "hello" }]
        metadata := some c3trajMd },
      { artifactId := "a2"
        parts := [{ kind := .file
                    file := some { name := "pic.png", mimeType := "image/png"
                                   uri := some "http://x/p.png" } }] }] }

/-- The trajectory-derived reasoning message of `c3task`. -/
def c3m1 : CarbonMessage :=
  { response_type := "reasoning_steps"
    reasoning_steps := some { steps := [{ content := "**Thinking**\n\npondering" }]
                              openState := some .closed } }

/-- The text message of `c3task` (artifact metadata attached). -/
def c3m2 : CarbonMessage :=
  { response_type := "text", text := some "hello", metadata := some c3trajMd }

/-- The image message of `c3task`. -/
def c3m3 : CarbonMessage :=
  { response_type := "image"
    user_defined := some (.obj [
      ("type", .str "image"),
      ("url", .str "http://x/p.png"),
      ("alt", .str "pic.png")]) }

/-- Tabular data part `[ \x7b a:1, b:2 \x7d, \x7b a:3, c:4 \x7d ]`. -/
def c6part : A2APart :=
  { kind := .data
    data := some (.arr [.obj [("a", .num 1), ("b", .num 2)],
                        .obj [("a", .num 3), ("c", .num 4)]]) }

/-- Data part whose payload is a one-element array holding an empty array:
`typeof` of the first element is `object` although it is not an object. -/
def c6x : A2APart := { kind := .data, data := some (.arr [.arr []]) }

/-- The data-table message of `c6part`: columns from the first row only. -/
def c6tblmsg : CarbonMessage :=
  { response_type := "user_defined"
    user_defined := some (.obj [
      ("type", .str "data_table"),
      ("columns", .arr [.str "a", .str "b"]),
      ("rows", .arr [.obj [("a", .num 1), ("b", .num 2)],
                     .obj [("a", .num 3), ("c", .num 4)]])]) }

/-- The data-table message of `c6x` (columns from `Object.keys` of an empty
array). -/
def c6xmsg : CarbonMessage :=
  { response_type := "user_defined"
    user_defined := some (.obj [
      ("type", .str "data_table"),
      ("columns", .arr []),
      ("rows", .arr [.arr []])]) }

/-- File part named like a chart but with an image MIME type (priority
test for the image branch). -/
def c7part : A2APart :=
  { kind := .file
    file := some { name := "sales_chart.png", mimeType := "image/png"
                   bytes := some "QUJD" } }

/-- Metadata map whose citation extension value is a wrapper object with a
`citations` array mixing objects and a non-object. -/
def c8md : JValue :=
  .obj [(AGENTSTACK_EXTENSION_URIS.CITATION,
    .obj [("citations", .arr [.obj [("title", .str "T")], .str "skip"])])]

/-- Part with an unrecognized `content_type` metadata tag. -/
def c9part : A2APart :=
  { kind := .text, text := some "x"
    metadata := some (.obj [("content_type", .str "mystery")]) }

/-- Task carrying only an unknown-tagged part and an empty trajectory. -/
def c9task : A2ATask :=
  { id := "t9"
    state := .completed
    artifacts := [
      { artifactId := "a1"
        parts := [c9part]
        metadata := some (.obj [(AGENTSTACK_EXTENSION_URIS.TRAJECTORY, .obj [])]) }] }

/-- Plain text part used by the payload-invariant witness. -/
def c2wpart : A2APart := { kind := .text, text := some "hi" }

/-- The text message `c2wpart` translates to. -/
def c2wmsg : CarbonMessage := { response_type := "text", text := some "hi" }

/-- First accumulator chunk: key `g1`, processing. -/
def c10chunk1 : AccChunk :=
  { key := "g1", description := some "working", status := .processing }

/-- Second accumulator chunk: key `g1`, terminal success. -/
def c10chunk2 : AccChunk :=
  { key := "g1", response := some (.str "done"), status := .success }

/-! ## Shared lemmas -/

theorem strOrD_of_falsy (a : Option String) (b : String) (h : strTruthy a = false) :
    strOrD a b = b := by
  cases a with
  | none => rfl
  | some s =>
    simp only [strTruthy] at h
    simp [strOrD, h]

theorem strOrD_of_truthy (a : Option String) (b : String) (h : strTruthy a = true) :
    strOrD a b = a.getD "" := by
  cases a with
  | none => simp [strTruthy] at h
  | some s =>
    simp only [strTruthy] at h
    simp [strOrD, h]

theorem infer_title_ne_empty (title : Option String) (s : String)
    (h : inferContentTypeFromTitle title = some s) : s ≠ "" := by
  cases title with
  | none => simp [inferContentTypeFromTitle] at h
  | some t =>
    simp only [inferContentTypeFromTitle] at h
    split at h
    · simp at h
    · split at h
      · injection h with h
        subst h
        decide
      · split at h
        · injection h with h
          subst h
          decide
        · split at h
          · injection h with h
            subst h
            decide
          · split at h
            · injection h with h
              subst h
              decide
            · simp at h

/-! ## Claim theorems -/

/-- C1: classification resolves the content kind by a fixed precedence —
an explicit `content_type` tag, when truthy, always determines the
classification; otherwise a successful title inference does; otherwise the
content analysis decides, where a recognized embedded-JSON discriminator
beats the plain-text keyword fallback; and concretely, a trajectory with
explicit `content_type` `tool_result` whose embedded JSON says `tool_call`
classifies as `tool_result`. -/
theorem c1_classification_precedence :
    (∀ t : TrajectoryData, strTruthy t.content_type = true →
      trajContentType t = t.content_type.getD "") ∧
    (∀ t : TrajectoryData, ∀ s : String, strTruthy t.content_type = false →
      inferContentTypeFromTitle t.title = some s →
      trajContentType t = s) ∧
    (∀ t : TrajectoryData, strTruthy t.content_type = false →
      inferContentTypeFromTitle t.title = none →
      trajContentType t = (parseTrajectoryContent t.content).type) ∧
    (∀ c : String, ∀ parsed : JValue, c ≠ "" →
      (extractFenced c).bind (fun cap => parseJson (strTrim cap)) = some parsed →
      (jvEqStr (parsed.get? "type") "tool_call"
        || jvEqStr (parsed.get? "content_type") "tool_call") = true →
      (parseTrajectoryContent (some c)).type = "tool_call") ∧
    (∀ c : String, ∀ parsed : JValue, c ≠ "" →
      (extractFenced c).bind (fun cap => parseJson (strTrim cap)) = some parsed →
      (jvEqStr (parsed.get? "type") "tool_call"
        || jvEqStr (parsed.get? "content_type") "tool_call") = false →
      (jvEqStr (parsed.get? "type") "tool_result"
        || jvEqStr (parsed.get? "content_type") "tool_result") = true →
      (parseTrajectoryContent (some c)).type = "tool_result") ∧
    (trajContentType c1traj = "tool_result" ∧
      (translateTrajectory c1traj).map (fun m => m.response_type) = some "chain_of_thought" ∧
      (translateTrajectory c1traj).bind msgStepStatus = some .success) := by
  refine ⟨?_, ?_, ?_, ?_, ?_, ?_, ?_, ?_⟩
  · intro t h
    unfold trajContentType
    exact strOrD_of_truthy _ _ h
  · intro t s h hi
    unfold trajContentType
    rw [strOrD_of_falsy _ _ h, hi]
    have hs : strTruthy (some s) = true := by
      simp [strTruthy, infer_title_ne_empty t.title s hi]
    rw [strOrD_of_truthy _ _ hs]
    rfl
  · intro t h hn
    unfold trajContentType
    rw [strOrD_of_falsy _ _ h, hn]
    rfl
  · intro c parsed hc hp hd
    simp only [parseTrajectoryContent, hc, if_false, hp, hd]
    simp
  · intro c parsed hc hp hd1 hd2
    simp only [parseTrajectoryContent, hc, if_false, hp, hd1, hd2]
    simp
  · rfl
  · rfl
  · decide

/-- C1 witness: the explicit-tag clause applied at a concrete trajectory
carrying an explicit tag next to a call-style title. -/
theorem c1_classification_precedence_witness :
    trajContentType ⟨some "Calling x", some "**Result:** done", none, some "custom_type"⟩
      = "custom_type" :=
  c1_classification_precedence.1
    ⟨some "Calling x", some "**Result:** done", none, some "custom_type"⟩ (by decide)

theorem translateTrajectory_tool_call_eq (t : TrajectoryData) (m : CarbonMessage)
    (hm : translateTrajectory t = some m)
    (hc : trajContentType t = CONTENT_TYPES.TOOL_CALL) :
    m = createToolCallFromTrajectory t (parseTrajectoryContent t.content) := by
  unfold translateTrajectory at hm
  split at hm
  · exact absurd hm (by simp)
  · simp only [hc, CONTENT_TYPES.TOOL_CALL, reduceIte, Option.some.injEq] at hm
    exact hm.symm

theorem translateTrajectory_tool_result_eq (t : TrajectoryData) (m : CarbonMessage)
    (hm : translateTrajectory t = some m)
    (hc : trajContentType t = CONTENT_TYPES.TOOL_RESULT) :
    m = createToolResultFromTrajectory t (parseTrajectoryContent t.content) := by
  unfold translateTrajectory at hm
  split at hm
  · exact absurd hm (by simp)
  · simp only [hc, CONTENT_TYPES.TOOL_CALL, CONTENT_TYPES.TOOL_RESULT, String.reduceEq,
      reduceIte, Option.some.injEq] at hm
    exact hm.symm

/-- C4 counterexample: the trajectory titled `search_web Result FAILED`
with content `done` classifies as tool-result and gets error status from
the code, although none of the claim's three conditions holds under a
case-sensitive reading of title containing `"failed"`. -/
theorem c4_error_detection_counterexample :
    trajContentType c4x = CONTENT_TYPES.TOOL_RESULT ∧
    jvEqStr (parseTrajectoryContent c4x.content).status "error" = false ∧
    optContainsLower c4x.content "error" = false ∧
    strContains (c4x.title.getD "") "failed" = false ∧
    (translateTrajectory c4x).bind msgStepStatus = some ChainOfThoughtStepStatus.error := by
  decide

/-- C4 (amended): for every trajectory classified as tool-result, the step
status is error exactly when the parsed explicit status equals `error`, or
the content contains the case-insensitive substring `error`, or the title
contains the case-insensitive substring `failed`; otherwise it is
success. -/
theorem c4_tool_result_error_status (t : TrajectoryData) (m : CarbonMessage)
    (hm : translateTrajectory t = some m)
    (hc : trajContentType t = CONTENT_TYPES.TOOL_RESULT) :
    msgStepStatus m = some (if jvEqStr (parseTrajectoryContent t.content).status "error"
        || optContainsLower t.content "error"
        || optContainsLower t.title "failed"
      then ChainOfThoughtStepStatus.error else ChainOfThoughtStepStatus.success) := by
  rw [translateTrajectory_tool_result_eq t m hm hc]
  rfl

/-- C4 witness: the spec's example — title `search_web Result`, content
containing `error`, no explicit status — classifies tool-result with error
status. -/
theorem c4_tool_result_error_status_witness :
    translateTrajectory c4traj = some c4msg ∧
    trajContentType c4traj = CONTENT_TYPES.TOOL_RESULT ∧
    msgStepStatus c4msg = some ChainOfThoughtStepStatus.error := by
  refine ⟨rfl, rfl, ?_⟩
  exact (c4_tool_result_error_status c4traj c4msg rfl rfl).trans (by decide)

/-- C5: for a trajectory classified as tool-call, the tool name resolves
by priority — the truthy parsed name from embedded JSON, else the
regex-extracted name from a `Calling <name>` / `Tool Call: <name>` style
title, else the literal `"tool"`; concretely, `Calling search_web` with no
explicit tag yields a tool-call step named `search_web`. -/
theorem c5_tool_call_name_priority :
    (∀ t : TrajectoryData, ∀ m : CarbonMessage, ∀ v : JValue,
      translateTrajectory t = some m →
      trajContentType t = CONTENT_TYPES.TOOL_CALL →
      jvWhenTruthy (parseTrajectoryContent t.content).toolName = some v →
      msgToolName m = some v) ∧
    (∀ t : TrajectoryData, ∀ m : CarbonMessage, ∀ s : String,
      translateTrajectory t = some m →
      trajContentType t = CONTENT_TYPES.TOOL_CALL →
      jvWhenTruthy (parseTrajectoryContent t.content).toolName = none →
      extractCallToolName t.title = some s →
      msgToolName m = some (.str s)) ∧
    (∀ t : TrajectoryData, ∀ m : CarbonMessage,
      translateTrajectory t = some m →
      trajContentType t = CONTENT_TYPES.TOOL_CALL →
      jvWhenTruthy (parseTrajectoryContent t.content).toolName = none →
      extractCallToolName t.title = none →
      msgToolName m = some (.str "tool")) ∧
    (trajContentType c5traj = CONTENT_TYPES.TOOL_CALL ∧
      (translateTrajectory c5traj).bind msgToolName = some (.str "search_web") ∧
      (translateTrajectory c5traj).bind msgStepStatus = some .processing) := by
  refine ⟨?_, ?_, ?_, ?_, ?_, ?_⟩
  · intro t m v hm hc hv
    rw [translateTrajectory_tool_call_eq t m hm hc]
    show some (resolveToolName _ _) = some v
    unfold resolveToolName
    rw [hv]
  · intro t m s hm hc hv hs
    rw [translateTrajectory_tool_call_eq t m hm hc]
    show some (resolveToolName _ _) = some (.str s)
    unfold resolveToolName
    rw [hv, hs]
  · intro t m hm hc hv hs
    rw [translateTrajectory_tool_call_eq t m hm hc]
    show some (resolveToolName _ _) = some (.str "tool")
    unfold resolveToolName
    rw [hv, hs]
  · rfl
  · rfl
  · rfl

/-- C5 witness: the priority clauses applied at the concrete example
trajectory `Calling search_web`. -/
theorem c5_tool_call_name_priority_witness :
    msgToolName (createToolCallFromTrajectory c5traj (parseTrajectoryContent c5traj.content))
      = some (.str "search_web") :=
  c5_tool_call_name_priority.2.1 c5traj
    (createToolCallFromTrajectory c5traj (parseTrajectoryContent c5traj.content))
    "search_web" rfl rfl rfl rfl

theorem translateTrajectory_payloadInv (t : TrajectoryData) (m : CarbonMessage)
    (hm : translateTrajectory t = some m) : payloadInv m := by
  simp only [translateTrajectory] at hm
  split_ifs at hm
  all_goals (try simp only [Option.some.injEq] at hm)
  all_goals first
    | (subst hm; rfl)
    | simp at hm

theorem translateMetadataPart_payloadInv (p : A2APart) (m : CarbonMessage)
    (hp : partTextOk p) (hm : translateMetadataPart p = some m) : payloadInv m := by
  simp only [translateMetadataPart] at hm
  split_ifs at hm with h1 h2 h3
  · simp only [Option.some.injEq] at hm
    subst hm
    rfl
  · simp only [Option.some.injEq] at hm
    subst hm
    simp [payloadInv, payloadFieldNames, expectedPayloadField, hp.2 h2]
  · simp only [Option.some.injEq] at hm
    subst hm
    rfl

theorem translateDataPart_payloadInv (p : A2APart) (m : CarbonMessage)
    (hm : translateDataPart p = some m) : payloadInv m := by
  simp only [translateDataPart] at hm
  split_ifs at hm
  all_goals (try simp only [Option.some.injEq] at hm)
  all_goals first
    | (subst hm; rfl)
    | simp at hm

theorem translateFilePart_payloadInv (p : A2APart) (a : Option A2AArtifact) (m : CarbonMessage)
    (hm : translateFilePart p a = some m) : payloadInv m := by
  simp only [translateFilePart] at hm
  repeat' split at hm
  all_goals (try simp only [Option.some.injEq] at hm)
  all_goals first
    | (subst hm; rfl)
    | simp at hm

theorem translateGenericDataPart_payloadInv (p : A2APart) (m : CarbonMessage)
    (hm : translateGenericDataPart p = .ok (some m)) : payloadInv m := by
  simp only [translateGenericDataPart] at hm
  repeat' split at hm
  all_goals (try simp only [Except.ok.injEq, Option.some.injEq, reduceCtorEq] at hm)
  all_goals first
    | (subst hm; rfl)
    | simp at hm

theorem attachMetadata_payloadInv (mo : Option CarbonMessage) (em : Option JValue) (m : CarbonMessage)
    (h : attachMetadata mo em = some m) (hi : ∀ m0, mo = some m0 → payloadInv m0) :
    payloadInv m := by
  cases mo with
  | none => simp [attachMetadata] at h
  | some m0 =>
    have h0 := hi m0 rfl
    cases em with
    | none =>
      simp only [attachMetadata, Option.some.injEq] at h
      subst h
      exact h0
    | some v =>
      simp only [attachMetadata] at h
      split at h
      all_goals simp only [Option.some.injEq] at h
      all_goals subst h
      · exact h0
      · exact h0

theorem translatePart_payloadInv (p : A2APart) (a : Option A2AArtifact) (m : CarbonMessage)
    (hp : partTextOk p) (hm : translatePart p a = .ok (some m)) : payloadInv m := by
  unfold translatePart at hm
  split at hm
  · rename_i t ht
    simp only [Except.ok.injEq] at hm
    exact translateTrajectory_payloadInv t m hm
  · split at hm
    · simp only [Except.ok.injEq] at hm
      exact attachMetadata_payloadInv _ _ _ hm
        (fun m0 h0 => translateMetadataPart_payloadInv p m0 hp h0)
    · split at hm
      · simp only [Except.ok.injEq] at hm
        exact attachMetadata_payloadInv _ _ _ hm
          (fun m0 h0 => translateDataPart_payloadInv p m0 h0)
      · split at hm
        · -- text part
          rename_i hkind
          simp only [Except.ok.injEq, Option.some.injEq] at hm
          subst hm
          simp [payloadInv, payloadFieldNames, expectedPayloadField, hp.1 hkind]
        · -- file part
          simp only [Except.ok.injEq] at hm
          exact attachMetadata_payloadInv _ _ _ hm
            (fun m0 h0 => translateFilePart_payloadInv p a m0 h0)
        · -- generic data part
          split at hm
          · exact absurd hm (by simp)
          · rename_i mo hmo
            simp only [Except.ok.injEq] at hm
            exact attachMetadata_payloadInv _ _ _ hm
              (fun m0 h0 => translateGenericDataPart_payloadInv p m0 (h0 ▸ hmo))

theorem translatePartsLoop_payloadInv (parts : List A2APart) (a : A2AArtifact)
    (acc out : List CarbonMessage)
    (hp : ∀ p ∈ parts, partTextOk p)
    (hacc : ∀ m ∈ acc, payloadInv m)
    (h : translatePartsLoop parts a acc = .ok out) :
    ∀ m ∈ out, payloadInv m := by
  induction parts generalizing acc with
  | nil =>
    simp only [translatePartsLoop, Except.ok.injEq] at h
    subst h
    exact hacc
  | cons p rest ih =>
    unfold translatePartsLoop at h
    split at h
    · exact absurd h (by simp)
    · rename_i m0 hres
      refine ih (acc ++ [m0]) (fun q hq => hp q (List.mem_cons_of_mem p hq)) ?_ h
      intro m1 hm1
      rcases List.mem_append.1 hm1 with h1 | h1
      · exact hacc m1 h1
      · rw [List.mem_singleton.1 h1]
        exact translatePart_payloadInv p (some a) m0 (hp p (List.mem_cons_self p rest)) hres
    · exact ih acc (fun q hq => hp q (List.mem_cons_of_mem p hq)) hacc h

theorem translateTaskLoop_payloadInv (artifacts : List A2AArtifact)
    (acc out : List CarbonMessage)
    (hp : ∀ a ∈ artifacts, ∀ p ∈ a.parts, partTextOk p)
    (hacc : ∀ m ∈ acc, payloadInv m)
    (h : translateTaskLoop artifacts acc = .ok out) :
    ∀ m ∈ out, payloadInv m := by
  induction artifacts generalizing acc with
  | nil =>
    simp only [translateTaskLoop, Except.ok.injEq] at h
    subst h
    exact hacc
  | cons a rest ih =>
    unfold translateTaskLoop at h
    have hacc1 : ∀ m ∈ (match extractTrajectoryFromMetadata a.metadata with
        | some artifactTrajectory =>
          match translateTrajectory artifactTrajectory with
          | some m => acc ++ [m]
          | none => acc
        | none => acc), payloadInv m := by
      cases hEx : extractTrajectoryFromMetadata a.metadata with
      | none => simp only [hEx]; exact hacc
      | some t =>
        cases hTr : translateTrajectory t with
        | none => simp only [hEx, hTr]; exact hacc
        | some m0 =>
          simp only [hEx, hTr]
          intro m1 hm1
          rcases List.mem_append.1 hm1 with h1 | h1
          · exact hacc m1 h1
          · rw [List.mem_singleton.1 h1]
            exact translateTrajectory_payloadInv t m0 hTr
    split at h
    · exact absurd h (by simp)
    · rename_i acc2 hres
      refine ih acc2 (fun b hb => hp b (List.mem_cons_of_mem a hb)) ?_ h
      exact translatePartsLoop_payloadInv a.parts a _ acc2
        (hp a (List.mem_cons_self a rest)) hacc1 hres

/-- C2 counterexample: an image file part yields a message whose kind tag
is `image` while its payload sits in `user_defined`, so the populated
field does not match the tag. -/
theorem c2_payload_tag_counterexample :
    translatePart c2part none = .ok (some c2msg) ∧
    payloadFieldNames c2msg = ["user_defined"] ∧
    c2msg.response_type = "image" ∧
    payloadFieldNames c2msg ≠ [c2msg.response_type] :=
  ⟨rfl, rfl, rfl, by decide⟩

/-- C2 (amended): every message produced by the trajectory, part,
streaming-part, batch and static factory paths populates exactly one
payload field, and it is the field its kind tag calls for — the field of
the same name, except image messages, which carry their payload in
`user_defined`; for the paths that echo a part's optional text the part is
assumed to carry its text string. -/
theorem c2_payload_shape :
    (∀ t : TrajectoryData, ∀ m : CarbonMessage,
      translateTrajectory t = some m → payloadInv m) ∧
    (∀ p : A2APart, ∀ a : Option A2AArtifact, ∀ m : CarbonMessage, partTextOk p →
      translatePart p a = .ok (some m) → payloadInv m) ∧
    (∀ p : A2APart, ∀ md : Option JValue, ∀ m : CarbonMessage, partTextOk p →
      translateStreamingPart p md = .ok (some m) → payloadInv m) ∧
    (∀ task : A2ATask, ∀ out : List CarbonMessage,
      (∀ a ∈ task.artifacts, ∀ p ∈ a.parts, partTextOk p) →
      translateTask task = .ok out → ∀ m ∈ out, payloadInv m) ∧
    (∀ tn : String, ∀ args : Option JValue, ∀ desc : Option String,
      payloadInv (createToolCallMessage tn args desc)) ∧
    (∀ tn : String, ∀ res : JValue, ∀ args : Option JValue, ∀ err : Bool,
      ∀ desc : Option String, payloadInv (createToolResultMessage tn res args err desc)) ∧
    (∀ content : String, ∀ os : ReasoningStepOpenState,
      payloadInv (createReasoningMessage content os)) := by
  refine ⟨translateTrajectory_payloadInv,
    fun p a m hp hm => translatePart_payloadInv p a m hp hm, ?_, ?_, ?_, ?_, ?_⟩
  · intro p md m hp hm
    unfold translateStreamingPart at hm
    split at hm
    · rename_i t ht
      simp only [Except.ok.injEq] at hm
      exact translateTrajectory_payloadInv t m hm
    · exact translatePart_payloadInv p _ m hp hm
  · intro task out hp h
    exact translateTaskLoop_payloadInv task.artifacts [] out hp (by simp) h
  · intro tn args desc
    rfl
  · intro tn res args err desc
    rfl
  · intro content os
    rfl

/-- C2 witness: the payload invariant applied to the message of a concrete
well-formed text part. -/
theorem c2_payload_shape_witness :
    translatePart c2wpart none = .ok (some c2wmsg) ∧ payloadInv c2wmsg :=
  ⟨rfl, c2_payload_shape.2.1 c2wpart none c2wmsg ⟨fun _ => rfl, fun _ => rfl⟩ rfl⟩

theorem trajPush_eq (a : A2AArtifact) (acc : List CarbonMessage) :
    (match extractTrajectoryFromMetadata a.metadata with
     | some t =>
       match translateTrajectory t with
       | some m => acc ++ [m]
       | none => acc
     | none => acc)
    = acc ++ (extractTrajectoryFromMetadata a.metadata >>= translateTrajectory).toList := by
  cases extractTrajectoryFromMetadata a.metadata with
  | none => simp
  | some t =>
    cases h : translateTrajectory t with
    | none => simp [h, Option.bind]
    | some m => simp [h, Option.bind]

theorem translatePartsLoop_eq (parts : List A2APart) (a : A2AArtifact)
    (acc : List CarbonMessage) :
    translatePartsLoop parts a acc = (partsMessages a parts).map (fun ms => acc ++ ms) := by
  induction parts generalizing acc with
  | nil => simp [translatePartsLoop, partsMessages, Except.map]
  | cons p rest ih =>
    unfold translatePartsLoop partsMessages
    cases hp : translatePart p (some a) with
    | error e => rfl
    | ok mo =>
      cases mo with
      | some m =>
        show translatePartsLoop rest a (acc ++ [m]) = _
        rw [ih]
        cases hr : partsMessages a rest with
        | error e => rfl
        | ok ms => simp [Except.map]
      | none =>
        show translatePartsLoop rest a acc = _
        rw [ih]
        cases hr : partsMessages a rest with
        | error e => rfl
        | ok ms => simp [Except.map]

theorem translateTaskLoop_eq (artifacts : List A2AArtifact) (acc : List CarbonMessage) :
    translateTaskLoop artifacts acc = (taskMessages artifacts).map (fun ms => acc ++ ms) := by
  induction artifacts generalizing acc with
  | nil => simp [translateTaskLoop, taskMessages, Except.map]
  | cons a rest ih =>
    unfold translateTaskLoop taskMessages
    rw [translatePartsLoop_eq, trajPush_eq]
    cases hp : partsMessages a a.parts with
    | error e => rfl
    | ok pms =>
      show translateTaskLoop rest
        (acc ++ (extractTrajectoryFromMetadata a.metadata >>= translateTrajectory).toList
          ++ pms) = _
      rw [ih]
      cases ht : taskMessages rest with
      | error e => rfl
      | ok tms => simp [Except.map]

/-- C3: the batch translator emits, per artifact in list order, the
artifact-level trajectory message (when present and translatable) before
the messages of that artifact's parts in part order; the example task with
trajectory metadata plus a text part and then an image part yields
exactly [trajectory-derived message, text message, image message]. -/
theorem c3_batch_order :
    (∀ task : A2ATask, translateTask task = taskMessages task.artifacts) ∧
    translateTask c3task = .ok [c3m1, c3m2, c3m3] := by
  constructor
  · intro task
    unfold translateTask
    rw [translateTaskLoop_eq]
    cases taskMessages task.artifacts <;> simp [Except.map]
  · rfl

/-- C6 counterexample: a non-empty array whose first element is an array —
not an object — still classifies as a data table (with `Object.keys`'s
index strings as columns), because the code tests `typeof data[0] ===
'object'`; the claim predicts an opaque structured-data message here. -/
theorem c6_tabular_counterexample :
    translateGenericDataPart c6x = .ok (some c6xmsg) ∧
    ¬ translateGenericDataPart c6x
        = .ok (some { response_type := "user_defined"
                      user_defined := some (.obj [
                        ("type", .str "structured_data"),
                        ("data", .arr [.arr []])]) }) := by
  constructor
  · rfl
  · intro h
    have h2 := (show translateGenericDataPart c6x = .ok (some c6xmsg) from rfl).symm.trans h
    simp [c6xmsg] at h2

/-- C6 (amended): a data payload that is a non-empty array whose first
element has `typeof` `object` classifies as a data table with columns
exactly `Object.keys` of that first element (its keys in first-occurrence
order for an object, index strings for an array; a `null` first element
throws a `TypeError`) and rows the input array unchanged; any other truthy
payload passes through as opaque structured data; a falsy or absent
payload yields no message.  The example `[(a:1,b:2),(a:3,c:4)]` gets
columns `a, b` only. -/
theorem c6_generic_data_classification :
    (∀ p : A2APart, ∀ fields : List (String × JValue), ∀ rest : List JValue,
      p.data = some (.arr (.obj fields :: rest)) →
      translateGenericDataPart p = .ok (some
        { response_type := "user_defined"
          user_defined := some (objOf [
            ("type", some (.str "data_table")),
            ("columns", some (.arr ((keysFirstOccur fields).map JValue.str))),
            ("rows", some (.arr (.obj fields :: rest)))]) })) ∧
    (∀ p : A2APart, ∀ elems rest : List JValue,
      p.data = some (.arr (.arr elems :: rest)) →
      translateGenericDataPart p = .ok (some
        { response_type := "user_defined"
          user_defined := some (objOf [
            ("type", some (.str "data_table")),
            ("columns", some (.arr (((List.range elems.length).map toString).map JValue.str))),
            ("rows", some (.arr (.arr elems :: rest)))]) })) ∧
    (∀ p : A2APart, ∀ rest : List JValue,
      p.data = some (.arr (.null :: rest)) →
      translateGenericDataPart p = .error .typeError) ∧
    (∀ p : A2APart, ∀ d : JValue, p.data = some d → d.truthy = true →
      (∀ x : JValue, ∀ xs : List JValue, d = .arr (x :: xs) → x.typeofObject = false) →
      translateGenericDataPart p = .ok (some
        { response_type := "user_defined"
          user_defined := some (objOf [
            ("type", some (.str "structured_data")),
            ("data", some d)]) })) ∧
    (∀ p : A2APart, ∀ d : JValue, p.data = some d → d.truthy = false →
      translateGenericDataPart p = .ok none) ∧
    (∀ p : A2APart, p.data = none → translateGenericDataPart p = .ok none) ∧
    translateGenericDataPart c6part = .ok (some c6tblmsg) := by
  refine ⟨?_, ?_, ?_, ?_, ?_, ?_, rfl⟩
  · intro p fields rest h
    unfold translateGenericDataPart
    rw [h]
    rfl
  · intro p elems rest h
    unfold translateGenericDataPart
    rw [h]
    rfl
  · intro p rest h
    unfold translateGenericDataPart
    rw [h]
    rfl
  · intro p d hd htr hna
    simp only [translateGenericDataPart, hd, htr, Bool.not_true, Bool.false_eq_true, if_false]
    cases d with
    | null => simp [JValue.truthy] at htr
    | bool b => rfl
    | num q => rfl
    | str s => rfl
    | obj fields => rfl
    | arr xs =>
      cases xs with
      | nil => rfl
      | cons x rest2 =>
        have hx := hna x rest2 rfl
        simp [hx]
  · intro p d hd htr
    simp [translateGenericDataPart, hd, htr]
  · intro p h
    unfold translateGenericDataPart
    rw [h]

/-- C6 witness: the object-first-row clause applied at the example input,
giving columns from the first row only. -/
theorem c6_generic_data_classification_witness :
    translateGenericDataPart c6part = .ok (some
      { response_type := "user_defined"
        user_defined := some (objOf [
          ("type", some (.str "data_table")),
          ("columns", some (.arr ((keysFirstOccur [("a", .num 1), ("b", .num 2)]).map JValue.str))),
          ("rows", some (.arr [.obj [("a", .num 1), ("b", .num 2)],
                               .obj [("a", .num 3), ("c", .num 4)]]))]) }) :=
  c6_generic_data_classification.1 c6part [("a", .num 1), ("b", .num 2)]
    [.obj [("a", .num 3), ("c", .num 4)]] rfl

/-- C7: file-part classification — a MIME type starting with `image/`
yields an image message (this check has priority, as the chart-named image
file shows); otherwise a name containing the case-sensitive substring
`chart` or `graph` yields a chart message; otherwise a generic attachment
whose `size` is the length of the raw base64 payload, absent when there is
no payload. -/
theorem c7_file_part_classification :
    (∀ p : A2APart, ∀ a : Option A2AArtifact, ∀ f : A2AFile, p.file = some f →
      strStartsWith f.mimeType "image/" = true →
      translateFilePart p a = some
        { response_type := "image"
          user_defined := some (objOf [
            ("type", some (.str "image")),
            ("url", some (.str (strOrD f.uri (base64ToDataUrl (f.bytes.getD "") f.mimeType)))),
            ("alt", some (.str f.name)),
            ("caption", (a.bind (fun x => x.description)).map JValue.str)]) }) ∧
    (∀ p : A2APart, ∀ a : Option A2AArtifact, ∀ f : A2AFile, p.file = some f →
      strStartsWith f.mimeType "image/" = false →
      (strContains f.name "chart" || strContains f.name "graph") = true →
      translateFilePart p a = some
        { response_type := "user_defined"
          user_defined := some (objOf [
            ("type", some (.str "chart")),
            ("imageUrl", some (.str (strOrD f.uri (base64ToDataUrl (f.bytes.getD "") f.mimeType)))),
            ("title", (a.bind (fun x => x.name)).map JValue.str),
            ("description", (a.bind (fun x => x.description)).map JValue.str)]) }) ∧
    (∀ p : A2APart, ∀ a : Option A2AArtifact, ∀ f : A2AFile, p.file = some f →
      strStartsWith f.mimeType "image/" = false →
      (strContains f.name "chart" || strContains f.name "graph") = false →
      translateFilePart p a = some
        { response_type := "user_defined"
          user_defined := some (objOf [
            ("type", some (.str "file_attachment")),
            ("fileName", some (.str f.name)),
            ("mimeType", some (.str f.mimeType)),
            ("downloadUrl", f.uri.map JValue.str),
            ("size", f.bytes.map (fun b => JValue.num (b.length : Rat)))]) }) ∧
    (translateFilePart c7part none = some
      { response_type := "image"
        user_defined := some (.obj [
          ("type", .str "image"),
          ("url", .str "data:image/png;base64,QUJD"),
          ("alt", .str "sales_chart.png")]) } ∧
     strContains "sales_chart.png" "chart" = true) := by
  refine ⟨?_, ?_, ?_, rfl, rfl⟩
  · intro p a f hf h
    simp [translateFilePart, hf, h]
  · intro p a f hf h1 h2
    simp [translateFilePart, hf, h1, h2]
  · intro p a f hf h1 h2
    simp [translateFilePart, hf, h1, h2]

/-- C7 witness: the attachment clause applied at a concrete plain file
with a base64 payload of length 4. -/
theorem c7_file_part_classification_witness :
    translateFilePart { kind := .file
                        file := some { name := "notes.txt", mimeType := "text/plain"
                                       bytes := some "QUJD" } } none = some
      { response_type := "user_defined"
        user_defined := some (objOf [
          ("type", some (.str "file_attachment")),
          ("fileName", some (.str "notes.txt")),
          ("mimeType", some (.str "text/plain")),
          ("downloadUrl", none),
          ("size", some (JValue.num ((4 : Nat) : Rat)))]) } :=
  c7_file_part_classification.2.2.1
    { kind := .file, file := some { name := "notes.txt", mimeType := "text/plain"
                                    bytes := some "QUJD" } }
    none { name := "notes.txt", mimeType := "text/plain", bytes := some "QUJD" }
    rfl rfl rfl

/-- C8: both metadata extractors treat an absent map or absent extension
key as an empty result and accept every shape without throwing (they are
total functions): the citation extractor normalizes a bare object to a
one-element list, an array to its object elements, and a wrapper carrying
a `citations` array to that array's object elements; the trajectory
extractor returns its normalized record for every truthy value of
`typeof` `object` (reading the four declared fields) and an empty result
otherwise. -/
theorem c8_metadata_extractor :
    (extractCitations none = []) ∧
    (∀ md : JValue, md.get? AGENTSTACK_EXTENSION_URIS.CITATION = none →
      extractCitations (some md) = []) ∧
    (∀ md : JValue, ∀ items : List JValue,
      md.get? AGENTSTACK_EXTENSION_URIS.CITATION = some (.arr items) →
      extractCitations (some md) = items.filter isObjectNonNull) ∧
    (∀ md : JValue, ∀ fields : List (String × JValue), ∀ items : List JValue,
      md.get? AGENTSTACK_EXTENSION_URIS.CITATION = some (.obj fields) →
      assocLast fields "citations" = some (.arr items) →
      extractCitations (some md) = items.filter isObjectNonNull) ∧
    (∀ md : JValue, ∀ fields : List (String × JValue),
      md.get? AGENTSTACK_EXTENSION_URIS.CITATION = some (.obj fields) →
      optIsArray (assocLast fields "citations") = false →
      extractCitations (some md) = [.obj fields]) ∧
    (extractTrajectoryFromMetadata none = none) ∧
    (∀ md : JValue, md.get? AGENTSTACK_EXTENSION_URIS.TRAJECTORY = none →
      extractTrajectoryFromMetadata (some md) = none) ∧
    (∀ md v : JValue, md.get? AGENTSTACK_EXTENSION_URIS.TRAJECTORY = some v →
      v.truthy = true → v.typeofObject = true →
      extractTrajectoryFromMetadata (some md) = some (jvToTrajectory v)) ∧
    (∀ md v : JValue, md.get? AGENTSTACK_EXTENSION_URIS.TRAJECTORY = some v →
      (v.truthy && v.typeofObject) = false →
      extractTrajectoryFromMetadata (some md) = none) := by
  refine ⟨rfl, ?_, ?_, ?_, ?_, rfl, ?_, ?_, ?_⟩
  · intro md h
    simp [extractCitations, h]
  · intro md items h
    simp [extractCitations, h, JValue.truthy]
  · intro md fields items h h2
    simp [extractCitations, h, JValue.truthy, h2]
  · intro md fields h h2
    simp only [extractCitations, h]
    cases ha : assocLast fields "citations" with
    | none => simp [ha, JValue.truthy]
    | some v =>
      cases v with
      | arr items =>
        rw [ha] at h2
        simp [optIsArray] at h2
      | null => simp [ha, JValue.truthy]
      | bool b => simp [ha, JValue.truthy]
      | num q => simp [ha, JValue.truthy]
      | str s => simp [ha, JValue.truthy]
      | obj fs => simp [ha, JValue.truthy]
  · intro md h
    simp [extractTrajectoryFromMetadata, h]
  · intro md v h htr hto
    simp [extractTrajectoryFromMetadata, h, htr, hto]
  · intro md v h hand
    simp [extractTrajectoryFromMetadata, h, hand]

/-- C8 witness: the wrapper clause at a concrete metadata map — the
`citations` array normalizes to its object elements, the non-object
element dropped. -/
theorem c8_metadata_extractor_witness :
    extractCitations (some c8md) = [.obj [("title", .str "T")]] :=
  c8_metadata_extractor.2.2.2.1 c8md
    [("citations", .arr [.obj [("title", .str "T")], .str "skip"])]
    [.obj [("title", .str "T")], .str "skip"] rfl rfl

theorem translateMetadataPart_unknown (p : A2APart) (ct : JValue)
    (hct : p.metadata.bind (fun md => md.get? "content_type") = some ct)
    (h1 : jvEqStr (some ct) CONTENT_TYPES.THINKING = false)
    (h2 : jvEqStr (some ct) CONTENT_TYPES.RESPONSE = false)
    (h3 : jvEqStr (some ct) CONTENT_TYPES.STATUS = false) :
    translateMetadataPart p = none := by
  simp [translateMetadataPart, hct, h1, h2, h3]

/-- C9: fragments of unknown or unsupported content kind produce no
message and no error — an unrecognized part `content_type` tag, an
unrecognized data-part `type`, and a trajectory with neither title nor
content are all dropped (`none`/`ok none`), and a task holding only such
fragments translates to the empty message list. -/
theorem c9_unknown_kind_dropped :
    (∀ p : A2APart, ∀ ct : JValue,
      p.metadata.bind (fun md => md.get? "content_type") = some ct →
      jvEqStr (some ct) CONTENT_TYPES.THINKING = false →
      jvEqStr (some ct) CONTENT_TYPES.RESPONSE = false →
      jvEqStr (some ct) CONTENT_TYPES.STATUS = false →
      translateMetadataPart p = none) ∧
    (∀ p : A2APart, ∀ dt : JValue,
      p.data.bind (fun d => d.get? "type") = some dt →
      jvEqStr (some dt) "tool_call" = false →
      jvEqStr (some dt) "tool_result" = false →
      translateDataPart p = none) ∧
    (∀ t : TrajectoryData, strTruthy t.title = false → strTruthy t.content = false →
      translateTrajectory t = none) ∧
    (∀ p : A2APart, ∀ a : Option A2AArtifact, ∀ ct : JValue,
      extractTrajectoryFromMetadata p.metadata = none →
      p.metadata.bind (fun md => md.get? "content_type") = some ct →
      ct.truthy = true →
      jvEqStr (some ct) CONTENT_TYPES.THINKING = false →
      jvEqStr (some ct) CONTENT_TYPES.RESPONSE = false →
      jvEqStr (some ct) CONTENT_TYPES.STATUS = false →
      translatePart p a = .ok none) ∧
    translateTask c9task = .ok [] := by
  refine ⟨translateMetadataPart_unknown, ?_, ?_, ?_, rfl⟩
  · intro p dt hdt h1 h2
    simp [translateDataPart, hdt, h1, h2]
  · intro t h1 h2
    simp [translateTrajectory, h1, h2]
  · intro p a ct hex hct htr h1 h2 h3
    unfold translatePart
    simp only [hex, hct, jvTruthy, htr, if_true]
    rw [translateMetadataPart_unknown p ct hct h1 h2 h3]
    rfl

/-- C9 witness: the unknown-tag clause at the concrete part carrying
`content_type: "mystery"`. -/
theorem c9_unknown_kind_dropped_witness :
    translatePart c9part none = .ok none :=
  c9_unknown_kind_dropped.2.2.2.1 c9part none (.str "mystery") rfl rfl rfl rfl rfl rfl

theorem assocFind_append (l1 l2 : List (String × AccStep)) (k : String) (s : AccStep)
    (h : assocFind l1 k = some s) : assocFind (l1 ++ l2) k = some s := by
  induction l1 with
  | nil => simp [assocFind] at h
  | cons kv rest ih =>
    simp only [assocFind, List.cons_append, List.find?] at h ⊢
    cases hk : (kv.1 == k) with
    | true => simpa [hk] using h
    | false =>
      simp only [hk] at h ⊢
      exact ih h

/-- C10 (spec-modelled): feeding two chunks with the same correlation key,
the first processing and the second terminal success, emits exactly one
opened delta followed by one finalized delta and leaves a single step; and
once a step is terminal, a later chunk with its key never mutates it — the
entry found under that key is unchanged by the feed. -/
theorem c10_accumulator_lifecycle :
    (∀ k : String, ∀ c1 c2 : AccChunk, c1.key = k → c2.key = k →
      c1.status = .processing → c2.status = .success →
      (accRun ⟨[], 0⟩ [c1, c2]).2 = [.opened k, .finalized k] ∧
      (accRun ⟨[], 0⟩ [c1, c2]).1.steps.length = 1) ∧
    (∀ st : AccState, ∀ c : AccChunk, ∀ s : AccStep,
      assocFind st.steps c.key = some s → isTerminal s.status = true →
      assocFind (accFeed st c).1.steps c.key = some s) := by
  constructor
  · intro k c1 c2 hk1 hk2 hs1 hs2
    subst hk1
    constructor
    · simp [accRun, accFeed, assocFind, hk2, hs1, hs2, isTerminal, newStepOf,
        mergeStep, assocReplace]
    · simp [accRun, accFeed, assocFind, hk2, hs1, hs2, isTerminal, newStepOf,
        mergeStep, assocReplace]
  · intro st c s hf ht
    simp only [accFeed, hf, ht, if_true]
    split
    · exact assocFind_append _ _ _ _ hf
    · exact assocFind_append _ _ _ _ hf

/-- C10 witness: the lifecycle clause at the two concrete chunks for key
`g1`. -/
theorem c10_accumulator_lifecycle_witness :
    (accRun ⟨[], 0⟩ [c10chunk1, c10chunk2]).2
      = [.opened "g1", .finalized "g1"] ∧
    (accRun ⟨[], 0⟩ [c10chunk1, c10chunk2]).1.steps.length = 1 :=
  c10_accumulator_lifecycle.1 "g1" c10chunk1 c10chunk2 rfl rfl rfl rfl

end A2ACarbon
